import Mathlib

/-!
# Verification of the Alice AI assignment tracker

Shallow embedding of the data model and operations of the
`Alice-AI-MCP-Client` repository (FastAPI backend + React frontend +
AI orchestration layer), together with proofs of the specification
claims.  Frontend functions are translated from the JSX sources;
backend operations that are documented in the spec but whose Python
sources are not part of the reviewed tree are modelled from the spec
(each such definition is marked `Modelled from the spec:`).
-/

namespace AliceAI

/-! ## Frontend data model

In the JavaScript sources an assignment is a plain object whose
`status` is a string and whose `priority` is a number.  Due dates are
read with `new Date(a.due_date)` and compared numerically, so we keep
the parsed timestamp (epoch milliseconds) as an integer field. -/

structure Assignment where
  id : Nat
  title : String
  description : String
  status : String
  priority : Nat
  dueDate : Int
  estimatedHours : Option Nat
  actualHours : Option Nat
  classId : Nat
deriving DecidableEq, Repr

/-- The three status strings used throughout the frontend
(`src/frontend/src/pages/Dashboard.jsx`, `AssignmentCard`). -/
def statusValues : List String := ["not_started", "in_progress", "completed"]

/-! ## Dashboard statistics (`src/frontend/src/pages/Dashboard.jsx`)

`calculateStats` counts assignments by status and by date window.  The
date-window predicates come from the `date-fns` library evaluated at
the ambient current time, so they are taken as parameters. -/

structure Stats where
  total : Nat
  notStarted : Nat
  inProgress : Nat
  completed : Nat
  dueToday : Nat
  dueTomorrow : Nat
  dueThisWeek : Nat
deriving Repr

/-- `calculateStats` from `Dashboard.jsx` lines 69-81. -/
def calculateStats (isToday isTomorrow isThisWeek : Int → Bool)
    (assignmentList : List Assignment) : Stats :=
  { total := assignmentList.length
    notStarted := (assignmentList.filter (fun a => a.status == "not_started")).length
    inProgress := (assignmentList.filter (fun a => a.status == "in_progress")).length
    completed := (assignmentList.filter (fun a => a.status == "completed")).length
    dueToday := (assignmentList.filter (fun a => isToday a.dueDate)).length
    dueTomorrow := (assignmentList.filter (fun a => isTomorrow a.dueDate)).length
    dueThisWeek := (assignmentList.filter (fun a => isThisWeek a.dueDate)).length }

/-- `upcomingAssignments` from `Dashboard.jsx` lines 117-120:
filter out completed, sort by due date (the JS comparator
`new Date(a.due_date) - new Date(b.due_date)` sorts by non-decreasing
timestamp; `Array.prototype.sort` is a stable sort), take the first 5. -/
def upcomingAssignments (assignments : List Assignment) : List Assignment :=
  ((assignments.filter (fun a => a.status != "completed")).mergeSort
      (fun a b => a.dueDate ≤ b.dueDate)).take 5

/-- A concrete assignment used by witnesses. -/
def sampleA : Assignment :=
  { id := 1, title := "Lab 3", description := "", status := "not_started",
    priority := 3, dueDate := 1730419200000, estimatedHours := some 2,
    actualHours := none, classId := 1 }

/-- A second concrete assignment used by witnesses. -/
def sampleB : Assignment :=
  { id := 2, title := "Essay", description := "", status := "completed",
    priority := 1, dueDate := 1730000000000, estimatedHours := none,
    actualHours := some 4, classId := 2 }

/-- C9, helper: splitting a list by a three-way status partition. -/
lemma status_counts_add (l : List Assignment)
    (h : ∀ a ∈ l, a.status = "not_started" ∨ a.status = "in_progress" ∨
      a.status = "completed") :
    (l.filter (fun a => a.status == "not_started")).length +
    (l.filter (fun a => a.status == "in_progress")).length +
    (l.filter (fun a => a.status == "completed")).length = l.length := by
  induction l with
  | nil => simp
  | cons a t ih =>
      have ht : ∀ b ∈ t, b.status = "not_started" ∨ b.status = "in_progress" ∨
          b.status = "completed" := fun b hb => h b (List.mem_cons_of_mem _ hb)
      have ih' := ih ht
      rcases h a (by simp) with ha | ha | ha <;>
        simp only [List.filter_cons, ha] <;> simp <;> omega

/-- **C9.**  For every list of assignments whose statuses are all among
`not_started`, `in_progress`, `completed`, the dashboard statistics
satisfy `notStarted + inProgress + completed = total`, where `total` is
the length of the list. -/
theorem calculateStats_partition (isToday isTomorrow isThisWeek : Int → Bool)
    (l : List Assignment)
    (h : ∀ a ∈ l, a.status = "not_started" ∨ a.status = "in_progress" ∨
      a.status = "completed") :
    (calculateStats isToday isTomorrow isThisWeek l).notStarted +
    (calculateStats isToday isTomorrow isThisWeek l).inProgress +
    (calculateStats isToday isTomorrow isThisWeek l).completed =
    (calculateStats isToday isTomorrow isThisWeek l).total := by
  simpa [calculateStats] using status_counts_add l h

/-- Witness for C9: the partition identity evaluated on a concrete list. -/
theorem calculateStats_partition_witness :
    (∀ a ∈ [sampleA, sampleB], a.status = "not_started" ∨
      a.status = "in_progress" ∨ a.status = "completed") ∧
    (calculateStats (fun _ => false) (fun _ => false) (fun _ => false)
        [sampleA, sampleB]).notStarted +
    (calculateStats (fun _ => false) (fun _ => false) (fun _ => false)
        [sampleA, sampleB]).inProgress +
    (calculateStats (fun _ => false) (fun _ => false) (fun _ => false)
        [sampleA, sampleB]).completed =
    (calculateStats (fun _ => false) (fun _ => false) (fun _ => false)
        [sampleA, sampleB]).total :=
  ⟨by decide, calculateStats_partition _ _ _ _ (by decide)⟩

/-- **C8.**  For every list of assignments, the dashboard upcoming
selection (`Dashboard.jsx` lines 117-120) has at most 5 entries,
contains no completed assignment, and is ordered by non-decreasing due
date. -/
theorem upcomingAssignments_spec (assignments : List Assignment) :
    (upcomingAssignments assignments).length ≤ 5 ∧
    (∀ a ∈ upcomingAssignments assignments, a.status ≠ "completed") ∧
    List.Pairwise (fun a b : Assignment => a.dueDate ≤ b.dueDate)
      (upcomingAssignments assignments) := by
  unfold upcomingAssignments
  refine ⟨List.length_take_le _ _, ?_, ?_⟩
  · intro a ha
    have hmem : a ∈ (assignments.filter
        (fun a => a.status != "completed")).mergeSort
        (fun a b => a.dueDate ≤ b.dueDate) := List.take_subset _ _ ha
    have hmem' : a ∈ assignments.filter (fun a => a.status != "completed") :=
      (List.mergeSort_perm _ _).mem_iff.mp hmem
    have := List.of_mem_filter hmem'
    simpa using this
  · have hs : List.Pairwise
        (fun a b : Assignment => (a.dueDate ≤ b.dueDate : Bool) = true)
        ((assignments.filter (fun a => a.status != "completed")).mergeSort
          (fun a b => a.dueDate ≤ b.dueDate)) := by
      apply List.sorted_mergeSort
      · intro a b c hab hbc
        simp only [decide_eq_true_eq] at *
        exact le_trans hab hbc
      · intro a b
        simp only [Bool.or_eq_true, decide_eq_true_eq]
        exact le_total a.dueDate b.dueDate
    have hsub : List.Sublist
        (((assignments.filter (fun a => a.status != "completed")).mergeSort
          (fun a b => a.dueDate ≤ b.dueDate)).take 5)
        ((assignments.filter (fun a => a.status != "completed")).mergeSort
          (fun a b => a.dueDate ≤ b.dueDate)) := List.take_sublist _ _
    exact (hs.sublist hsub).imp (fun h => by simpa using h)

/-! ## Chat surface (`AIAssistant`, `src/unnamed/part_002`)

`handleSendMessage` posts the user message to `/api/ai/chat` and
appends the response (or a fixed apology on failure) to the message
list.  The structured response body carries `response`, `agent_used`,
`action_taken` and a `data` side-channel; in the JS object the
side-channel fields may be absent, and only their truthiness is ever
tested, so they are modelled as booleans. -/

structure ChatData where
  classes_created : Bool
  classes : Bool
  pending_assignments_created : Bool
  pending_assignments : Bool
deriving DecidableEq, Repr

structure ChatResponse where
  response : String
  agent_used : String
  action_taken : Bool
  data : ChatData
deriving DecidableEq, Repr

/-- One entry of the chat message list.  `agent`, `actionTaken` and
`data` are absent (JS `undefined`) on user messages and on the error
message, hence `Option`. -/
structure Message where
  id : Nat
  text : String
  sender : String
  agent : Option String := none
  actionTaken : Option Bool := none
  data : Option ChatData := none
deriving DecidableEq, Repr

/-- Truthiness of `message.actionTaken` as tested by the renderer
(`part_002` line 368, `message.actionTaken && ...`): an absent field is
falsy. -/
def actionTakenFlag (m : Message) : Bool := m.actionTaken.getD false

/-- Side effects issued by `handleSendMessage` after the response. -/
inductive Eff where
  | fetchClasses
  | fetchPendingAssignments
  | toastError
deriving DecidableEq, Repr

/-- API requests to the backend data store.  `fetchClasses` performs
`classesAPI.getAll()` (`GET /classes`) and `fetchPendingAssignments`
performs `pendingAssignmentsAPI.getAll(\x7bstatus: 'pending'\x7d)`
(`GET /pending-assignments`), per `part_002` lines 65-81 and the
`api.js` service definitions. -/
inductive ApiCall where
  | getClasses
  | getPendingAssignments
deriving DecidableEq, Repr

/-- Data-store queries performed by each effect (from the bodies of
`fetchClasses` and `fetchPendingAssignments` in `part_002`). -/
def effApiCalls : Eff → List ApiCall
  | .fetchClasses => [.getClasses]
  | .fetchPendingAssignments => [.getPendingAssignments]
  | .toastError => []

/-- All data-store queries a list of effects performs. -/
def refreshApiCalls (effs : List Eff) : List ApiCall :=
  effs.flatMap effApiCalls

/-- The fixed fallback apology string from the `catch` branch of
`handleSendMessage` (`part_002` line 130). -/
def fallbackApology : String :=
  "I\x27m sorry, I\x27m having trouble processing that right now. Please try again."

/-- The user message object built at `part_002` lines 87-92
(`id: Date.now()` is taken as the parameter `now`). -/
def mkUserMessage (now : Nat) (text : String) : Message :=
  { id := now, text := text, sender := "user" }

/-- `!inputMessage.trim()` from `part_002` line 85: the input is blank
exactly when it trims to the empty string, i.e. consists only of
whitespace. -/
def isBlank (s : String) : Bool := s.toList.all Char.isWhitespace

/-- `handleSendMessage` (`part_002` lines 83-140), as a function of the
previous message list, the input text, and the outcome of the
`aiAPI.chat` call.  Returns the new message list and the effects run
afterwards.  The early return on blank input models
`if (!inputMessage.trim()) return`. -/
def handleSendMessage (now : Nat) (messages : List Message)
    (inputMessage : String) (result : Except Unit ChatResponse) :
    List Message × List Eff :=
  if isBlank inputMessage then (messages, [])
  else
    let msgs1 := messages ++ [mkUserMessage now inputMessage]
    match result with
    | .ok r =>
        let aiMessage : Message :=
          { id := now + 1, text := r.response, sender := "ai",
            agent := some r.agent_used, actionTaken := some r.action_taken,
            data := some r.data }
        let effs :=
          if r.action_taken then
            (if r.data.classes_created || r.data.classes then
              [Eff.fetchClasses] else []) ++
            (if r.data.pending_assignments_created ||
                r.data.pending_assignments then
              [Eff.fetchPendingAssignments] else [])
          else []
        (msgs1 ++ [aiMessage], effs)
    | .error _ =>
        let errorMessage : Message :=
          { id := now + 1, text := fallbackApology, sender := "ai",
            agent := some "error" }
        (msgs1 ++ [errorMessage], [Eff.toastError])

/-- **C3.**  For every chat request actually sent (non-blank input),
the chat surface receives a text response: some AI message is appended
after the user message, and when the request fails internally the
appended message is the fixed fallback apology with a falsy mutation
flag. -/
theorem chat_always_receives_text (now : Nat) (messages : List Message)
    (inputMessage : String) (result : Except Unit ChatResponse)
    (h : isBlank inputMessage = false) :
    ∃ m : Message,
      (handleSendMessage now messages inputMessage result).1 =
        messages ++ [mkUserMessage now inputMessage] ++ [m] ∧
      m.sender = "ai" ∧
      (∀ e, result = .error e →
        m.text = fallbackApology ∧ actionTakenFlag m = false) := by
  unfold handleSendMessage
  rw [if_neg (by simp [h])]
  cases result with
  | ok r =>
      exact ⟨_, rfl, rfl, fun e he => nomatch he⟩
  | error e =>
      exact ⟨_, rfl, rfl, fun e' _ => ⟨rfl, rfl⟩⟩

/-- Witness for C3: the error path at a concrete input. -/
theorem chat_always_receives_text_witness :
    isBlank "hello" = false ∧
    ∃ m : Message,
      (handleSendMessage 7 [] "hello" (.error ())).1 =
        [] ++ [mkUserMessage 7 "hello"] ++ [m] ∧
      m.sender = "ai" ∧
      (∀ e, (Except.error e : Except Unit ChatResponse) = .error e →
        m.text = fallbackApology ∧ actionTakenFlag m = false) := by
  refine ⟨by decide, ?_⟩
  have h := chat_always_receives_text 7 [] "hello" (.error ()) (by decide)
  obtain ⟨m, h1, h2, h3⟩ := h
  exact ⟨m, h1, h2, fun e _ => h3 e rfl⟩

/-- A concrete successful chat response whose side-channel reports a
created class, used to refute C4 as stated. -/
def creationResponse : ChatResponse :=
  { response := "Created your class.", agent_used := "create",
    action_taken := true,
    data := { classes_created := true, classes := false,
              pending_assignments_created := false,
              pending_assignments := false } }

/-- **C4, counterexample.**  The claim says that on a mutation-flagged
response the calling layer refreshes UI state from the side-channel
without re-querying the data store.  On this concrete response the
handler issues `fetchClasses`, which performs the data-store query
`GET /classes`: the refresh is a re-query. -/
theorem refresh_requeries_counterexample :
    (handleSendMessage 0 [] "make a class CS101" (.ok creationResponse)).2 =
      [Eff.fetchClasses] ∧
    creationResponse.action_taken = true ∧
    refreshApiCalls
      (handleSendMessage 0 [] "make a class CS101" (.ok creationResponse)).2 =
      [ApiCall.getClasses] := by
  refine ⟨?_, rfl, ?_⟩ <;> rfl

/-- **C4, amended.**  When the mutation flag is set, the calling layer
uses the side-channel only to decide which views to refresh and
refreshes them by re-querying the data store (`GET /classes` when the
side-channel reports classes created or queried, `GET
/pending-assignments` when it reports pending assignments created or
queried); when the flag is unset, no refresh of classes or pending
assignments is performed. -/
theorem refresh_follows_side_channel (now : Nat) (messages : List Message)
    (inputMessage : String) (r : ChatResponse)
    (h : isBlank inputMessage = false) :
    (handleSendMessage now messages inputMessage (.ok r)).2 =
      (if r.action_taken then
        (if r.data.classes_created || r.data.classes then
          [Eff.fetchClasses] else []) ++
        (if r.data.pending_assignments_created ||
            r.data.pending_assignments then
          [Eff.fetchPendingAssignments] else [])
      else []) ∧
    (r.action_taken = false →
      refreshApiCalls
        (handleSendMessage now messages inputMessage (.ok r)).2 = []) := by
  unfold handleSendMessage
  rw [if_neg (by simp [h])]
  refine ⟨rfl, ?_⟩
  intro hflag
  simp [hflag, refreshApiCalls]

/-- Witness for the amended C4: a flag-unset response triggers no
refresh. -/
theorem refresh_follows_side_channel_witness :
    isBlank "hi" = false ∧
    ((handleSendMessage 0 [] "hi"
        (.ok { response := "Sure.", agent_used := "general",
               action_taken := false,
               data := { classes_created := false, classes := false,
                         pending_assignments_created := false,
                         pending_assignments := false } })).2 =
      (if false then [Eff.fetchClasses] else []) ∧
      refreshApiCalls
        ((handleSendMessage 0 [] "hi"
          (.ok { response := "Sure.", agent_used := "general",
                 action_taken := false,
                 data := { classes_created := false, classes := false,
                           pending_assignments_created := false,
                           pending_assignments := false } })).2) = []) := by
  refine ⟨by decide, ?_⟩
  have h := refresh_follows_side_channel 0 [] "hi"
    { response := "Sure.", agent_used := "general", action_taken := false,
      data := { classes_created := false, classes := false,
                pending_assignments_created := false,
                pending_assignments := false } } (by decide)
  exact ⟨by simpa using h.1, h.2 rfl⟩

/-! ## Frontend priority configuration tables

Three tables in the sources fix the ordinal-to-label correspondence:
`priorityConfig` in `ApprovalInterface.jsx` lines 12-16, `priorityConfig`
in `AssignmentCard` (`part_006` lines 31-35) and `priorityOptions` in
`EditAssignmentModal` (`part_005` lines 11-15). -/

structure PriorityInfo where
  label : String
  color : String
deriving DecidableEq, Repr

/-- `priorityConfig` from `ApprovalInterface.jsx` lines 12-16. -/
def priorityConfigApproval : Nat → Option PriorityInfo
  | 1 => some { label := "Low", color := "text-green-400" }
  | 2 => some { label := "Medium", color := "text-yellow-400" }
  | 3 => some { label := "High", color := "text-red-400" }
  | _ => none

/-- `priorityConfig` from `AssignmentCard` (`part_006` lines 31-35). -/
def priorityConfigCard : Nat → Option PriorityInfo
  | 1 => some { label := "Low", color := "text-green-400" }
  | 2 => some { label := "Medium", color := "text-yellow-400" }
  | 3 => some { label := "High", color := "text-red-400" }
  | _ => none

structure PriorityOption where
  value : Nat
  label : String
  color : String
deriving DecidableEq, Repr

/-- `priorityOptions` from `EditAssignmentModal` (`part_005` lines 11-15). -/
def priorityOptions : List PriorityOption :=
  [ { value := 1, label := "Low", color := "text-green-400" },
    { value := 2, label := "Medium", color := "text-yellow-400" },
    { value := 3, label := "High", color := "text-red-400" } ]

/-- The ordinal priority values admitted by the data model
(spec section 3: "priority (low/medium/high, ordinal 1-3)"). -/
def validPriorities : List Nat := [1, 2, 3]

/-- The fixed ordinal-to-label correspondence stated by the spec:
1 denotes Low, 2 denotes Medium, 3 denotes High. -/
def ordinalLabel : Nat → String
  | 1 => "Low"
  | 2 => "Medium"
  | 3 => "High"
  | _ => ""

/-! ## Backend data store

The Python backend (`backend/`, FastAPI + SQLAlchemy over SQLite) is
not part of the reviewed tree; only its REST surface (`api.js`) and the
spec describe it.  The following operations are therefore modelled from
the spec (sections 3, 4.3, 6 and 8 of `spec.md`). -/

structure AssignmentFields where
  title : String
  description : String
  dueDate : Int
  priority : Nat
  estimatedHours : Option Nat
  classId : Nat
deriving DecidableEq, Repr

structure StoreAssignment where
  id : Nat
  fields : AssignmentFields
  status : String
  actualHours : Option Nat
deriving DecidableEq, Repr

/-- A PendingAssignment row: identical shape to Assignment plus an
approval status and an origin tag (spec section 3). -/
structure PendingRow where
  id : Nat
  fields : AssignmentFields
  approvalStatus : String
  origin : String
deriving DecidableEq, Repr

structure ClassRow where
  id : Nat
  code : String
  name : String
deriving DecidableEq, Repr

/-- The `NotFound`/`ConstraintViolation`-style error taxonomy of the
data store (spec section 6). -/
inductive StoreError where
  | notFound
  | invalidArguments
deriving DecidableEq, Repr

structure Store where
  classes : List ClassRow
  assignments : List StoreAssignment
  pending : List PendingRow
  nextId : Nat
deriving DecidableEq, Repr

def emptyStore : Store := { classes := [], assignments := [], pending := [], nextId := 1 }

/-- Modelled from the spec: `createClass(fields) -> Class`
(spec section 6); the backend router is not under the reviewed tree. -/
def createClass (s : Store) (code name : String) : Store :=
  { s with
    classes := s.classes ++ [{ id := s.nextId, code := code, name := name }],
    nextId := s.nextId + 1 }

/-- Modelled from the spec: `createPendingAssignment(fields) ->
PendingAssignment` (spec sections 3 and 6); the backend router is not
under the reviewed tree.  Foreign-key integrity and the ordinal-1-3
priority invariant of spec section 3 are enforced at creation; the new
row starts in approval status `pending`. -/
def createPendingAssignment (s : Store) (f : AssignmentFields)
    (origin : String) : Except StoreError Store :=
  if s.classes.any (fun c => c.id == f.classId) then
    if validPriorities.contains f.priority then
      .ok { s with
        pending := s.pending ++
          [{ id := s.nextId, fields := f, approvalStatus := "pending",
             origin := origin }],
        nextId := s.nextId + 1 }
    else .error .invalidArguments
  else .error .notFound

/-- Modelled from the spec: direct assignment creation through the
manual form (`POST /assignments` in `api.js`); the backend router is
not under the reviewed tree.  Validates the class reference, the
priority ordinal and the status enumeration (spec section 3). -/
def createAssignment (s : Store) (f : AssignmentFields) (status : String) :
    Except StoreError Store :=
  if s.classes.any (fun c => c.id == f.classId) then
    if validPriorities.contains f.priority && statusValues.contains status then
      .ok { s with
        assignments := s.assignments ++
          [{ id := s.nextId, fields := f, status := status,
             actualHours := none }],
        nextId := s.nextId + 1 }
    else .error .invalidArguments
  else .error .notFound

/-- The Assignment produced from an approved PendingAssignment. -/
def toAssignment (id : Nat) (p : PendingRow) : StoreAssignment :=
  { id := id, fields := p.fields, status := "not_started", actualHours := none }

/-- Modelled from the spec: `POST /pending-assignments/:id/approve`
(`api.js` line 714); the backend router is not under the reviewed
tree.  Approval converts the row into a real Assignment and removes
the staging row; an unknown identifier fails with a `NotFound`-class
error (spec sections 3 and 8). -/
def approvePending (s : Store) (pid : Nat) : Except StoreError Store :=
  match s.pending.find? (fun q => q.id == pid) with
  | none => .error .notFound
  | some p =>
      .ok { s with
        assignments := s.assignments ++ [toAssignment s.nextId p],
        pending := s.pending.filter (fun q => q.id != pid),
        nextId := s.nextId + 1 }

/-- Modelled from the spec: `POST /pending-assignments/:id/reject`
(`api.js` line 715); the backend router is not under the reviewed
tree.  Rejection deletes the staging row without side effect (spec
section 3). -/
def rejectPending (s : Store) (pid : Nat) : Except StoreError Store :=
  match s.pending.find? (fun q => q.id == pid) with
  | none => .error .notFound
  | some _ =>
      .ok { s with pending := s.pending.filter (fun q => q.id != pid) }

/-- Modelled from the spec: `PUT /pending-assignments/:id` (`api.js`
line 713, used by the edit-before-approval flow); the backend router is
not under the reviewed tree.  Edits the staged fields, keeping the
approval status; the priority ordinal stays validated. -/
def updatePendingAssignment (s : Store) (pid : Nat) (f : AssignmentFields) :
    Except StoreError Store :=
  if s.pending.any (fun q => q.id == pid) then
    if validPriorities.contains f.priority then
      .ok { s with
        pending := s.pending.map (fun q =>
          if q.id == pid then { q with fields := f } else q) }
    else .error .invalidArguments
  else .error .notFound

/-- Modelled from the spec: `PATCH /assignments/:id/status` (`api.js`
lines 692-695); the backend router is not under the reviewed tree.
Status transitions are free-form — any enumerated status is accepted
regardless of the current one (spec section 3); `actual_hours` may be
set alongside. -/
def updateAssignmentStatus (s : Store) (aid : Nat) (status : String)
    (actualHours : Option Nat) : Except StoreError Store :=
  if statusValues.contains status then
    if s.assignments.any (fun a => a.id == aid) then
      .ok { s with
        assignments := s.assignments.map (fun a =>
          if a.id == aid then
            { a with
              status := status
              actualHours := (match actualHours with
                | some h => some h
                | none => a.actualHours) }
          else a) }
    else .error .notFound
  else .error .invalidArguments

/-- States of the data store reachable from the empty store through the
modelled operations. -/
inductive Reachable : Store → Prop where
  | init : Reachable emptyStore
  | stepCreateClass {s : Store} (code name : String) :
      Reachable s → Reachable (createClass s code name)
  | stepCreatePending {s s' : Store} (f : AssignmentFields) (o : String) :
      Reachable s → createPendingAssignment s f o = .ok s' → Reachable s'
  | stepCreateAssignment {s s' : Store} (f : AssignmentFields) (st : String) :
      Reachable s → createAssignment s f st = .ok s' → Reachable s'
  | stepUpdatePending {s s' : Store} (pid : Nat) (f : AssignmentFields) :
      Reachable s → updatePendingAssignment s pid f = .ok s' → Reachable s'
  | stepApprove {s s' : Store} (pid : Nat) :
      Reachable s → approvePending s pid = .ok s' → Reachable s'
  | stepReject {s s' : Store} (pid : Nat) :
      Reachable s → rejectPending s pid = .ok s' → Reachable s'
  | stepUpdateStatus {s s' : Store} (aid : Nat) (status : String)
      (hrs : Option Nat) :
      Reachable s → updateAssignmentStatus s aid status hrs = .ok s' →
      Reachable s'

/-- Every PendingAssignment row of a reachable store is still awaiting
approval: approved or rejected rows are removed, never left dangling. -/
lemma reachable_pending_all_pending (s : Store) (h : Reachable s) :
    ∀ p ∈ s.pending, p.approvalStatus = "pending" := by
  induction h with
  | init => simp [emptyStore]
  | stepCreateClass code name hs ih => simpa [createClass] using ih
  | stepCreatePending f o hs heq ih =>
      unfold createPendingAssignment at heq
      split at heq
      · split at heq
        · cases heq
          intro p hp
          rcases List.mem_append.mp hp with hp | hp
          · exact ih p hp
          · simp at hp
            subst hp
            rfl
        · cases heq
      · cases heq
  | stepCreateAssignment f st hs heq ih =>
      unfold createAssignment at heq
      split at heq
      · split at heq
        · cases heq
          simpa using ih
        · cases heq
      · cases heq
  | stepUpdatePending pid f hs heq ih =>
      unfold updatePendingAssignment at heq
      split at heq
      · split at heq
        · cases heq
          intro p hp
          simp only [List.mem_map] at hp
          obtain ⟨q, hq, hqe⟩ := hp
          subst hqe
          split
          · exact ih q hq
          · exact ih q hq
        · cases heq
      · cases heq
  | stepApprove pid hs heq ih =>
      unfold approvePending at heq
      split at heq
      · cases heq
      · cases heq
        intro p hp
        exact ih p (List.mem_of_mem_filter hp)
  | stepReject pid hs heq ih =>
      unfold rejectPending at heq
      split at heq
      · cases heq
      · cases heq
        intro p hp
        exact ih p (List.mem_of_mem_filter hp)
  | stepUpdateStatus aid status hrs hs heq ih =>
      unfold updateAssignmentStatus at heq
      split at heq
      · split at heq
        · cases heq
          simpa using ih
        · cases heq
      · cases heq

/-- Every assignment and every pending assignment of a reachable store
carries an ordinal priority in `{1, 2, 3}`. -/
lemma reachable_priority_valid (s : Store) (h : Reachable s) :
    (∀ a ∈ s.assignments, a.fields.priority ∈ validPriorities) ∧
    (∀ p ∈ s.pending, p.fields.priority ∈ validPriorities) := by
  induction h with
  | init => simp [emptyStore]
  | stepCreateClass code name hs ih => simpa [createClass] using ih
  | stepCreatePending f o hs heq ih =>
      unfold createPendingAssignment at heq
      split at heq
      · split at heq
        · rename_i hv
          cases heq
          refine ⟨by simpa using ih.1, ?_⟩
          intro p hp
          rcases List.mem_append.mp hp with hp | hp
          · exact ih.2 p hp
          · simp at hp
            subst hp
            simpa using hv
        · cases heq
      · cases heq
  | stepCreateAssignment f st hs heq ih =>
      unfold createAssignment at heq
      split at heq
      · split at heq
        · rename_i hv
          cases heq
          refine ⟨?_, by simpa using ih.2⟩
          intro a ha
          rcases List.mem_append.mp ha with ha | ha
          · exact ih.1 a ha
          · simp at ha
            subst ha
            have := (Bool.and_eq_true _ _).mp hv
            simpa using this.1
        · cases heq
      · cases heq
  | stepUpdatePending pid f hs heq ih =>
      unfold updatePendingAssignment at heq
      split at heq
      · split at heq
        · rename_i hv
          cases heq
          refine ⟨by simpa using ih.1, ?_⟩
          intro p hp
          simp only [List.mem_map] at hp
          obtain ⟨q, hq, hqe⟩ := hp
          subst hqe
          split
          · simpa using hv
          · exact ih.2 q hq
        · cases heq
      · cases heq
  | stepApprove pid hs heq ih =>
      unfold approvePending at heq
      split at heq
      · cases heq
      · rename_i p hfind
        cases heq
        refine ⟨?_, ?_⟩
        · intro a ha
          rcases List.mem_append.mp ha with ha | ha
          · exact ih.1 a ha
          · simp at ha
            subst ha
            exact ih.2 p (List.mem_of_find?_eq_some hfind)
        · intro q hq
          exact ih.2 q (List.mem_of_mem_filter hq)
  | stepReject pid hs heq ih =>
      unfold rejectPending at heq
      split at heq
      · cases heq
      · cases heq
        refine ⟨by simpa using ih.1, ?_⟩
        intro q hq
        exact ih.2 q (List.mem_of_mem_filter hq)
  | stepUpdateStatus aid status hrs hs heq ih =>
      unfold updateAssignmentStatus at heq
      split at heq
      · split at heq
        · cases heq
          refine ⟨?_, by simpa using ih.2⟩
          intro a ha
          simp only [List.mem_map] at ha
          obtain ⟨b, hb, hbe⟩ := ha
          subst hbe
          split
          · simpa using ih.1 b hb
          · exact ih.1 b hb
        · cases heq
      · cases heq

/-- **C7.**  In every reachable store state the priority field of every
assignment and pending assignment is one of the ordinals `{1, 2, 3}`,
and the ordinal-to-label correspondence is the same in all three
frontend tables and fixed to 1 = Low, 2 = Medium, 3 = High. -/
theorem priority_ordinal_correspondence (s : Store) (hs : Reachable s) :
    (∀ a ∈ s.assignments, a.fields.priority ∈ validPriorities) ∧
    (∀ p ∈ s.pending, p.fields.priority ∈ validPriorities) ∧
    (∀ n ∈ validPriorities,
      (priorityConfigApproval n).map PriorityInfo.label =
        some (ordinalLabel n) ∧
      (priorityConfigCard n).map PriorityInfo.label =
        some (ordinalLabel n) ∧
      (priorityOptions.find? (fun o => o.value == n)).map
        PriorityOption.label = some (ordinalLabel n)) ∧
    (∀ o ∈ priorityOptions, o.value ∈ validPriorities) ∧
    ordinalLabel 1 = "Low" ∧ ordinalLabel 2 = "Medium" ∧
    ordinalLabel 3 = "High" :=
  ⟨(reachable_priority_valid s hs).1, (reachable_priority_valid s hs).2,
    by decide, by decide, rfl, rfl, rfl⟩

/-- The class used by the store witnesses
(`createClass emptyStore` result). -/
def wsClassStore : Store :=
  { classes := [{ id := 1, code := "ICS 211", name := "Intro to CS" }],
    assignments := [], pending := [], nextId := 2 }

/-- Concrete assignment fields used by the store witnesses. -/
def wsFields : AssignmentFields :=
  { title := "Lab 3", description := "", dueDate := 1730419200000,
    priority := 3, estimatedHours := some 2, classId := 1 }

/-- The store after staging one AI-created assignment. -/
def wsPendingStore : Store :=
  { classes := [{ id := 1, code := "ICS 211", name := "Intro to CS" }],
    assignments := [],
    pending := [{ id := 2, fields := wsFields,
                  approvalStatus := "pending",
                  origin := "syllabus_parse" }],
    nextId := 3 }

lemma wsClassStore_eq : createClass emptyStore "ICS 211" "Intro to CS" =
    wsClassStore := rfl

lemma wsPendingStore_reachable : Reachable wsPendingStore := by
  have h1 : Reachable wsClassStore :=
    wsClassStore_eq ▸ Reachable.stepCreateClass _ _ Reachable.init
  exact Reachable.stepCreatePending wsFields "syllabus_parse" h1 rfl

/-- Witness for C7: the priority invariant and label correspondence at
a concrete reachable store holding one staged high-priority row. -/
theorem priority_ordinal_correspondence_witness :
    Reachable wsPendingStore ∧
    (∀ p ∈ wsPendingStore.pending,
      p.fields.priority ∈ validPriorities) ∧
    ordinalLabel 3 = "High" := by
  have h := priority_ordinal_correspondence wsPendingStore
    wsPendingStore_reachable
  exact ⟨wsPendingStore_reachable, h.2.1, h.2.2.2.2.2.2⟩

lemma approvePending_not_found (s : Store) (pid : Nat)
    (h : s.pending.find? (fun q => q.id == pid) = none) :
    approvePending s pid = .error .notFound := by
  unfold approvePending
  rw [h]

lemma rejectPending_not_found (s : Store) (pid : Nat)
    (h : s.pending.find? (fun q => q.id == pid) = none) :
    rejectPending s pid = .error .notFound := by
  unfold rejectPending
  rw [h]

lemma find?_filter_ne_none (l : List PendingRow) (pid : Nat) :
    (l.filter (fun q => q.id != pid)).find? (fun q => q.id == pid) = none := by
  rw [List.find?_eq_none]
  intro x hx
  have hxf := List.of_mem_filter hx
  simp at hxf ⊢
  exact hxf

/-- **C1.**  Approving a PendingAssignment converts it into an
Assignment and removes the staging row; rejecting removes the row
without creating an Assignment; a second approve (or reject) of the
identifier, after the row is gone, fails with a `NotFound`-class error
instead of creating a duplicate; and in every reachable state every
remaining PendingAssignment row is still `pending` — approved or
rejected rows never dangle. -/
theorem pending_approval_lifecycle (s : Store) (pid : Nat) (p : PendingRow)
    (hfind : s.pending.find? (fun q => q.id == pid) = some p) :
    (∃ s', approvePending s pid = .ok s' ∧
      s'.assignments = s.assignments ++ [toAssignment s.nextId p] ∧
      s'.pending = s.pending.filter (fun q => q.id != pid) ∧
      approvePending s' pid = .error .notFound ∧
      rejectPending s' pid = .error .notFound) ∧
    (∃ s'', rejectPending s pid = .ok s'' ∧
      s''.assignments = s.assignments ∧
      s''.pending = s.pending.filter (fun q => q.id != pid)) ∧
    (Reachable s → ∀ q ∈ s.pending, q.approvalStatus = "pending") := by
  refine ⟨?_, ?_, fun hr => reachable_pending_all_pending s hr⟩
  · refine ⟨{ s with
        assignments := s.assignments ++ [toAssignment s.nextId p]
        pending := s.pending.filter (fun q => q.id != pid)
        nextId := s.nextId + 1 }, ?_, rfl, rfl, ?_, ?_⟩
    · unfold approvePending
      rw [hfind]
    · exact approvePending_not_found _ _ (find?_filter_ne_none _ _)
    · exact rejectPending_not_found _ _ (find?_filter_ne_none _ _)
  · refine ⟨{ s with
        pending := s.pending.filter (fun q => q.id != pid) }, ?_, rfl, rfl⟩
    unfold rejectPending
    rw [hfind]

/-- The staged row held by `wsPendingStore`. -/
def wsRow : PendingRow :=
  { id := 2, fields := wsFields, approvalStatus := "pending",
    origin := "syllabus_parse" }

/-- Witness for C1: one approve succeeds on the concrete staged row and
a second approve of the same identifier fails with `NotFound`. -/
theorem pending_approval_lifecycle_witness :
    wsPendingStore.pending.find? (fun q => q.id == 2) = some wsRow ∧
    (∃ s', approvePending wsPendingStore 2 = .ok s' ∧
      s'.pending = [] ∧
      approvePending s' 2 = .error .notFound) := by
  have h := pending_approval_lifecycle wsPendingStore 2 wsRow rfl
  obtain ⟨⟨s', h1, _, h3, h4, _⟩, _, _⟩ := h
  refine ⟨rfl, s', h1, ?_, h4⟩
  rw [h3]
  rfl

/-- **C6.**  The status-update operation is free-form: for any current
status `src` and any target `target` among the three enumerated
statuses, updating an assignment currently in `src` succeeds and leaves
it in `target`, with no ordering enforced between the two. -/
theorem status_transition_free (s : Store) (aid : Nat) (a : StoreAssignment)
    (src target : String) (hmem : a ∈ s.assignments) (haid : a.id = aid)
    (hsrc : a.status = src) (hsv : src ∈ statusValues)
    (htv : target ∈ statusValues) :
    ∃ s', updateAssignmentStatus s aid target none = .ok s' ∧
      (∀ x ∈ s'.assignments, x.id = aid → x.status = target) ∧
      (∃ x ∈ s'.assignments, x.id = aid ∧ x.status = target) := by
  have hct : statusValues.contains target = true :=
    List.elem_eq_true_of_mem htv
  have hany : s.assignments.any (fun x => x.id == aid) = true := by
    rw [List.any_eq_true]
    exact ⟨a, hmem, by simp [haid]⟩
  refine ⟨{ s with
      assignments := s.assignments.map (fun x =>
        if x.id == aid then
          { x with status := target, actualHours := x.actualHours }
        else x) }, ?_, ?_, ?_⟩
  · unfold updateAssignmentStatus
    rw [hct, hany]
    simp
  · intro x hx hxid
    simp only [List.mem_map] at hx
    obtain ⟨b, hb, hbe⟩ := hx
    subst hbe
    by_cases hbid : b.id = aid
    · simp [hbid]
    · simp only [beq_iff_eq, hbid, if_false] at hxid
  · refine ⟨_, List.mem_map.mpr ⟨a, hmem, rfl⟩, ?_⟩
    simp [haid]

/-- A concrete store with one completed assignment, for the C6
witness. -/
def wsCompletedStore : Store :=
  { classes := [{ id := 1, code := "ICS 211", name := "Intro to CS" }],
    assignments := [{ id := 2, fields := wsFields, status := "completed",
                      actualHours := some 4 }],
    pending := [], nextId := 3 }

/-- Witness for C6: reopening a completed assignment back to
`not_started` succeeds in one step. -/
theorem status_transition_free_witness :
    ({ id := 2, fields := wsFields, status := "completed",
       actualHours := some 4 } : StoreAssignment) ∈
      wsCompletedStore.assignments ∧
    ∃ s', updateAssignmentStatus wsCompletedStore 2 "not_started" none =
        .ok s' ∧
      (∃ x ∈ s'.assignments, x.id = 2 ∧ x.status = "not_started") := by
  have h := status_transition_free wsCompletedStore 2
    { id := 2, fields := wsFields, status := "completed",
      actualHours := some 4 }
    "completed" "not_started" (by simp [wsCompletedStore]) rfl rfl
    (by decide) (by decide)
  obtain ⟨s', h1, _, h3⟩ := h
  exact ⟨by simp [wsCompletedStore], s', h1, h3⟩

/-! ## Model Registry

`ai_config.py` is not under the reviewed tree; the registry is
modelled from spec sections 2, 4.1 and the model catalog documented in
`src/ENHANCED_AI_SYSTEM.md`. -/

structure ModelDescriptor where
  key : String
  provider : String
  label : String
deriving DecidableEq, Repr

/-- The static model catalog (`src/ENHANCED_AI_SYSTEM.md`, section
"Supported Models"). -/
def modelCatalog : List ModelDescriptor :=
  [ { key := "llama-70b", provider := "groq", label := "Llama 3.3 70B Versatile" },
    { key := "llama-8b", provider := "groq", label := "Llama 3.1 8B Instant" },
    { key := "mixtral", provider := "groq", label := "Mixtral 8x7B" },
    { key := "gpt-4", provider := "openai", label := "GPT-4" },
    { key := "gpt-3.5-turbo", provider := "openai", label := "GPT-3.5 Turbo" },
    { key := "claude-3.5-sonnet", provider := "anthropic", label := "Claude 3.5 Sonnet" },
    { key := "llama3-local", provider := "ollama", label := "Llama 3 local" } ]

/-- Registry state: which provider credentials are present in the
environment, and the currently selected descriptor. -/
structure RegistryState where
  creds : String → Bool
  active : ModelDescriptor

inductive RegistryError where
  | unknownModel
  | modelUnavailable
deriving DecidableEq, Repr

/-- Modelled from the spec: `select(modelKey)` of the Model Registry
(spec section 4.1); `ai_config.py` is not under the reviewed tree.
Fails with `UnknownModel` when the key is not in the catalog, with
`ModelUnavailable` when the provider credential is absent, and only
otherwise updates the active pointer and returns the new descriptor.
The (possibly updated) registry state is returned alongside the
outcome. -/
def selectModel (st : RegistryState) (key : String) :
    RegistryState × Except RegistryError ModelDescriptor :=
  match modelCatalog.find? (fun d => d.key == key) with
  | none => (st, .error .unknownModel)
  | some d =>
      if st.creds d.provider then ({ st with active := d }, .ok d)
      else (st, .error .modelUnavailable)

/-- **C5.**  `select(modelKey)` fails with `UnknownModel` for keys not
in the catalog and with `ModelUnavailable` when the provider credential
is absent; in both failure cases the registry state — in particular the
active descriptor — is unchanged; only for an available catalog entry
does it update the active pointer and return the new descriptor. -/
theorem selectModel_spec (st : RegistryState) (key : String) :
    (modelCatalog.find? (fun d => d.key == key) = none →
      selectModel st key = (st, .error .unknownModel)) ∧
    (∀ d, modelCatalog.find? (fun d => d.key == key) = some d →
      st.creds d.provider = false →
      selectModel st key = (st, .error .modelUnavailable)) ∧
    (∀ d, modelCatalog.find? (fun d => d.key == key) = some d →
      st.creds d.provider = true →
      selectModel st key = ({ st with active := d }, .ok d)) ∧
    (∀ e, (selectModel st key).2 = .error e →
      (selectModel st key).1 = st ∧
      (selectModel st key).1.active = st.active) := by
  unfold selectModel
  cases hfind : modelCatalog.find? (fun d => d.key == key) with
  | none =>
      refine ⟨fun _ => rfl, ?_, ?_, ?_⟩
      · intro d hd
        cases hd
      · intro d hd
        cases hd
      · intro e _
        exact ⟨rfl, rfl⟩
  | some d =>
      refine ⟨?_, ?_, ?_, ?_⟩
      · intro h0
        cases h0
      · intro d' hd' hcf
        cases hd'
        simp [hcf]
      · intro d' hd' hct
        cases hd'
        simp [hct]
      · intro e he
        by_cases hc : st.creds d.provider = true
        · simp [hc] at he
        · simp [hc]

/-- A registry state with only the Groq credential present. -/
def wRegistry : RegistryState :=
  { creds := fun p => p == "groq",
    active := { key := "llama-70b", provider := "groq",
                label := "Llama 3.3 70B Versatile" } }

/-- Witness for C5: with only a Groq credential, selecting `gpt-4`
fails with `ModelUnavailable`, selecting an unknown key fails with
`UnknownModel`, and both leave the active descriptor unchanged;
selecting `llama-8b` succeeds and moves the pointer. -/
theorem selectModel_spec_witness :
    selectModel wRegistry "gpt-4" = (wRegistry, .error .modelUnavailable) ∧
    selectModel wRegistry "unknown-key" = (wRegistry, .error .unknownModel) ∧
    (selectModel wRegistry "gpt-4").1.active = wRegistry.active ∧
    selectModel wRegistry "llama-8b" =
      ({ wRegistry with
          active := { key := "llama-8b", provider := "groq",
                      label := "Llama 3.1 8B Instant" } },
        .ok { key := "llama-8b", provider := "groq",
              label := "Llama 3.1 8B Instant" }) := by
  have h1 := (selectModel_spec wRegistry "gpt-4").2.1
    { key := "gpt-4", provider := "openai", label := "GPT-4" } rfl rfl
  have h2 := (selectModel_spec wRegistry "unknown-key").1 rfl
  have h3 := (selectModel_spec wRegistry "llama-8b").2.2.1
    { key := "llama-8b", provider := "groq",
      label := "Llama 3.1 8B Instant" } rfl rfl
  exact ⟨h1, h2, by rw [h1], h3⟩

/-! ## Orchestration Loop

`multi_step_agent.py` is not under the reviewed tree; the loop is
modelled from spec sections 4.4 and 8.  The model is abstracted as an
oracle mapping the conversation so far to either a final message or a
tool-call request; tool execution is abstracted as a function returning
a result turn plus the mutation summaries it produced. -/

inductive Turn where
  | user (content : String)
  | assistant (content : String)
  | tool (name : String) (content : String)
deriving DecidableEq, Repr

inductive ModelOut where
  | finalMessage (text : String)
  | toolCall (name : String) (args : List (String × String))
deriving DecidableEq, Repr

structure ToolOutcome where
  content : String
  mutations : List String
deriving DecidableEq, Repr

structure RunResult where
  text : String
  actionsTaken : Bool
  mutations : List String
  aborted : Bool
deriving DecidableEq, Repr

/-- Modelled from the spec: the best-effort text returned when the step
budget is exhausted (spec section 4.4: "returns a best-effort message
plus whatever mutations already succeeded"). -/
def bestEffortMessage : String :=
  "I could not finish every step, but the actions completed so far have been applied."

/-- Modelled from the spec: the step budget, "a fixed maximum number of
tool-call iterations (small, single-digit)" (spec section 4.4). -/
def maxToolSteps : Nat := 5

/-- Modelled from the spec: one orchestration run (spec section 4.4);
`multi_step_agent.py` is not under the reviewed tree.  `fuel` is the
remaining step budget; the returned number counts the tool executions
performed.  Exhausting the budget transitions to the aborted result
carrying the mutations accumulated so far. -/
def runAux (oracle : List Turn → ModelOut)
    (exec : String → List (String × String) → ToolOutcome) :
    Nat → List Turn → List String → RunResult × Nat
  | 0, _, muts =>
      ({ text := bestEffortMessage, actionsTaken := !muts.isEmpty,
         mutations := muts, aborted := true }, 0)
  | fuel + 1, conv, muts =>
      match oracle conv with
      | .finalMessage t =>
          ({ text := t, actionsTaken := !muts.isEmpty, mutations := muts,
             aborted := false }, 0)
      | .toolCall n args =>
          let r := exec n args
          let out := runAux oracle exec fuel
            (conv ++ [Turn.tool n r.content]) (muts ++ r.mutations)
          (out.1, out.2 + 1)

/-- Modelled from the spec: `runChat(userMessage)` (spec section 6),
seeding the conversation with the user message and running the loop
under the step budget. -/
def runChat (oracle : List Turn → ModelOut)
    (exec : String → List (String × String) → ToolOutcome)
    (userMessage : String) : RunResult × Nat :=
  runAux oracle exec maxToolSteps [Turn.user userMessage] []

lemma runAux_count_le (oracle : List Turn → ModelOut)
    (exec : String → List (String × String) → ToolOutcome) :
    ∀ fuel conv muts, (runAux oracle exec fuel conv muts).2 ≤ fuel := by
  intro fuel
  induction fuel with
  | zero => intro conv muts; simp [runAux]
  | succ n ih =>
      intro conv muts
      unfold runAux
      cases oracle conv with
      | finalMessage t => simp
      | toolCall nm args =>
          simp only
          have := ih (conv ++ [Turn.tool nm (exec nm args).content])
            (muts ++ (exec nm args).mutations)
          omega

lemma runAux_muts_monotone (oracle : List Turn → ModelOut)
    (exec : String → List (String × String) → ToolOutcome) :
    ∀ fuel conv muts, ∃ extra,
      (runAux oracle exec fuel conv muts).1.mutations = muts ++ extra := by
  intro fuel
  induction fuel with
  | zero => intro conv muts; exact ⟨[], by simp [runAux]⟩
  | succ n ih =>
      intro conv muts
      unfold runAux
      cases oracle conv with
      | finalMessage t => exact ⟨[], by simp⟩
      | toolCall nm args =>
          simp only
          obtain ⟨extra, he⟩ := ih
            (conv ++ [Turn.tool nm (exec nm args).content])
            (muts ++ (exec nm args).mutations)
          exact ⟨(exec nm args).mutations ++ extra, by simp [he]⟩

lemma runAux_chain (oracle : List Turn → ModelOut)
    (exec : String → List (String × String) → ToolOutcome)
    (hchain : ∀ conv, ∃ n args, oracle conv = .toolCall n args) :
    ∀ fuel conv muts,
      (runAux oracle exec fuel conv muts).1.aborted = true ∧
      (runAux oracle exec fuel conv muts).1.text = bestEffortMessage ∧
      (runAux oracle exec fuel conv muts).2 = fuel := by
  intro fuel
  induction fuel with
  | zero => intro conv muts; simp [runAux]
  | succ n ih =>
      intro conv muts
      obtain ⟨nm, args, hc⟩ := hchain conv
      unfold runAux
      rw [hc]
      simp only
      have := ih (conv ++ [Turn.tool nm (exec nm args).content])
        (muts ++ (exec nm args).mutations)
      exact ⟨this.1, this.2.1, by omega⟩

/-- **C2.**  For every oracle (hence every sequence of model-emitted
tool-call requests) the number of tool executions in one run never
exceeds the configured step budget; an unbroken chain of tool calls
exhausts the budget and transitions the run to the aborted result,
which still carries a best-effort text and the mutations already
performed rather than failing the request. -/
theorem step_budget_bounded (oracle : List Turn → ModelOut)
    (exec : String → List (String × String) → ToolOutcome)
    (userMessage : String) :
    (runChat oracle exec userMessage).2 ≤ maxToolSteps ∧
    ((∀ conv, ∃ n args, oracle conv = .toolCall n args) →
      (runChat oracle exec userMessage).1.aborted = true ∧
      (runChat oracle exec userMessage).1.text = bestEffortMessage ∧
      (runChat oracle exec userMessage).2 = maxToolSteps) ∧
    (∀ fuel conv muts, ∃ extra,
      (runAux oracle exec fuel conv muts).1.mutations = muts ++ extra) := by
  refine ⟨runAux_count_le oracle exec _ _ _, ?_, runAux_muts_monotone oracle exec⟩
  intro hchain
  exact runAux_chain oracle exec hchain _ _ _

/-- Witness for C2: an oracle that always asks for another tool call
exhausts the budget of 5, the run aborts with the best-effort text. -/
theorem step_budget_bounded_witness :
    (runChat (fun _ => ModelOut.toolCall "get_classes" [])
      (fun _ _ => { content := "[]", mutations := [] }) "loop").2 ≤
        maxToolSteps ∧
    (runChat (fun _ => ModelOut.toolCall "get_classes" [])
      (fun _ _ => { content := "[]", mutations := [] }) "loop").1.aborted =
        true ∧
    (runChat (fun _ => ModelOut.toolCall "get_classes" [])
      (fun _ _ => { content := "[]", mutations := [] }) "loop").1.text =
        bestEffortMessage ∧
    (runChat (fun _ => ModelOut.toolCall "get_classes" [])
      (fun _ _ => { content := "[]", mutations := [] }) "loop").2 =
        maxToolSteps := by
  have h := step_budget_bounded (fun _ => ModelOut.toolCall "get_classes" [])
    (fun _ _ => { content := "[]", mutations := [] }) "loop"
  have hc := h.2.1 (fun conv => ⟨"get_classes", [], rfl⟩)
  exact ⟨h.1, hc.1, hc.2.1, hc.2.2⟩

/-! ## Calendar grid (`Calendar`, `src/unnamed/part_003` lines 651-672)

`getDaysInMonth` builds the month grid from `new Date(year, month, 1)`,
`new Date(year, month + 1, 0)`, `.getDate()` and `.getDay()`.  The
`Date` semantics follow ECMAScript `MakeDay`/`DateFromTime`: the
proleptic Gregorian calendar on a days-since-epoch timeline, with month
overflow normalized by floor division.  The civil-calendar conversions
use the standard era/year-of-era decomposition. -/

/-- Gregorian leap-year rule (as in ECMAScript `DaysInYear`). -/
def isLeap (y : Int) : Bool := (y % 4 == 0 && y % 100 != 0) || y % 400 == 0

/-- The length of month `m` (0-based index, as in JS) of year `y`. -/
def daysInMonthTable (y : Int) (m : Nat) : Int :=
  match m with
  | 0 => 31
  | 1 => if isLeap y then 29 else 28
  | 2 => 31
  | 3 => 30
  | 4 => 31
  | 5 => 30
  | 6 => 31
  | 7 => 31
  | 8 => 30
  | 9 => 31
  | 10 => 30
  | 11 => 31
  | _ => 0

/-- Days since 1970-01-01 of the civil date `y-m-d` (months 1-12),
via the era / year-of-era / day-of-era decomposition; all divisors are
positive, so `/` is floor division. -/
def daysFromCivil (y m d : Int) : Int :=
  let yy := y - (if m ≤ 2 then 1 else 0)
  let era := yy / 400
  let yoe := yy - era * 400
  let mp := (m + 9) % 12
  let doy := (153 * mp + 2) / 5 + d - 1
  let doe := yoe * 365 + yoe / 4 - yoe / 100 + doy
  era * 146097 + doe - 719468

/-- Civil date within one 400-year era, from the day-of-era; returns
(year-of-era with the Jan/Feb bump, month 1-12, day 1-31). -/
def civilOfDoe (doe : Int) : Int × Int × Int :=
  let yoe := (doe - doe / 1460 + doe / 36524 - doe / 146096) / 365
  let doy := doe - (365 * yoe + yoe / 4 - yoe / 100)
  let mp := (5 * doy + 2) / 153
  let d := doy - (153 * mp + 2) / 5 + 1
  let m := mp + (if mp < 10 then 3 else -9)
  (yoe + (if m ≤ 2 then 1 else 0), m, d)

/-- The civil date of a days-since-epoch value. -/
def civilFromDays (z : Int) : Int × Int × Int :=
  let era := (z + 719468) / 146097
  let doe := z + 719468 - era * 146097
  let c := civilOfDoe doe
  (c.1 + era * 400, c.2.1, c.2.2)

/-- `new Date(y, monthIndex, day)` (ECMAScript `MakeDay`): the month
index is normalized by floor division/modulo 12, the day offsets from
the first of that month; result in days since epoch. -/
def jsMakeDay (y monthIndex day : Int) : Int :=
  let ym := y + monthIndex / 12
  let mn := monthIndex % 12
  daysFromCivil ym (mn + 1) 1 + (day - 1)

/-- `.getDate()`: the day-of-month component. -/
def jsGetDate (t : Int) : Int := (civilFromDays t).2.2

/-- `.getDay()`: Sunday-based weekday index; day 0 (1970-01-01) was a
Thursday, weekday 4. -/
def jsGetDay (t : Int) : Int := (t + 4) % 7

lemma daysFromCivil_add_400 (y m d k : Int) :
    daysFromCivil (y + 400 * k) m d = daysFromCivil y m d + 146097 * k := by
  simp only [daysFromCivil]
  split <;> omega

lemma civilFromDays_day_add (z k : Int) :
    (civilFromDays (z + 146097 * k)).2.2 = (civilFromDays z).2.2 := by
  simp only [civilFromDays]
  have h : z + 146097 * k + 719468 - (z + 146097 * k + 719468) / 146097 * 146097
      = z + 719468 - (z + 719468) / 146097 * 146097 := by omega
  rw [h]

lemma jsMakeDay_shift (y mi d k : Int) :
    jsMakeDay (y + 400 * k) mi d = jsMakeDay y mi d + 146097 * k := by
  simp only [jsMakeDay]
  have h : y + 400 * k + mi / 12 = (y + mi / 12) + 400 * k := by ring
  rw [h, daysFromCivil_add_400]
  ring

lemma jsGetDate_shift (t k : Int) :
    jsGetDate (t + 146097 * k) = jsGetDate t :=
  civilFromDays_day_add t k

lemma isLeap_shift (y k : Int) : isLeap (y + 400 * k) = isLeap y := by
  have h4 : (y + 400 * k) % 4 = y % 4 := by omega
  have h100 : (y + 400 * k) % 100 = y % 100 := by omega
  have h400 : (y + 400 * k) % 400 = y % 400 := by omega
  simp [isLeap, h4, h100, h400]

lemma daysInMonthTable_shift (y k : Int) (m : Nat) :
    daysInMonthTable (y + 400 * k) m = daysInMonthTable y m := by
  unfold daysInMonthTable
  rw [isLeap_shift]

set_option maxRecDepth 100000 in
set_option maxHeartbeats 1600000 in
/-- The day before the first of the next month is the last day of this
month — checked exhaustively over one 400-year era. -/
lemma lastday_finite : ∀ n : Nat, n < 400 → ∀ m : Nat, m < 12 →
    jsGetDate (jsMakeDay (n : Int) ((m : Int) + 1) 0) =
      daysInMonthTable (n : Int) m := by decide

/-- `new Date(year, month + 1, 0).getDate()` equals the month length,
for every year: the general case reduces to the finite era check by
400-year periodicity. -/
lemma jsGetDate_lastday (y : Int) (m : Nat) (hm : m < 12) :
    jsGetDate (jsMakeDay y ((m : Int) + 1) 0) = daysInMonthTable y m := by
  have hsplit : y = y % 400 + 400 * (y / 400) := by omega
  have hr0 : 0 ≤ y % 400 := by omega
  obtain ⟨n, hn⟩ : ∃ n : Nat, (n : Int) = y % 400 :=
    ⟨(y % 400).toNat, Int.toNat_of_nonneg hr0⟩
  rw [hsplit, ← hn, jsMakeDay_shift, jsGetDate_shift, daysInMonthTable_shift]
  have hn400 : n < 400 := by omega
  exact lastday_finite n hn400 m hm

/-- The first loop of `getDaysInMonth` (`part_003` lines 662-664):
push `null` once per leading cell. -/
def emptyCells : Nat → List (Option Int)
  | 0 => []
  | n + 1 => none :: emptyCells n

/-- The second loop of `getDaysInMonth` (`part_003` lines 667-669):
push `new Date(year, month, day)` for `day = 1 .. daysInMonth`. -/
def dayCells (year : Int) (month : Nat) (day : Nat) : Nat → List (Option Int)
  | 0 => []
  | n + 1 => some (jsMakeDay year (month : Int) (day : Int)) ::
      dayCells year month (day + 1) n

/-- `getDaysInMonth` (`part_003` lines 651-672): leading `null` cells
for the weekday offset of the first of the month, then one `Date` cell
per day of the month. -/
def getDaysInMonth (year : Int) (month : Nat) : List (Option Int) :=
  let firstDay := jsMakeDay year (month : Int) 1
  let lastDay := jsMakeDay year ((month : Int) + 1) 0
  let daysInMonth := jsGetDate lastDay
  let startingDayOfWeek := jsGetDay firstDay
  emptyCells startingDayOfWeek.toNat ++ dayCells year month 1 daysInMonth.toNat

lemma emptyCells_eq (n : Nat) : emptyCells n = List.replicate n none := by
  induction n with
  | zero => rfl
  | succ k ih => simp [emptyCells, ih, List.replicate_succ]

lemma dayCells_eq (year : Int) (month : Nat) :
    ∀ n day, dayCells year month day n =
      (List.range' day n).map
        (fun d : Nat => some (jsMakeDay year (month : Int) (d : Int))) := by
  intro n
  induction n with
  | zero => intro day; rfl
  | succ k ih =>
      intro day
      rw [List.range'_succ]
      simp only [dayCells, List.map_cons]
      rw [ih]

/-- **C10.**  For every month, `getDaysInMonth` returns exactly `d`
leading empty cells — `d` being the Sunday-based weekday index of the
first of the month, a value in `[0, 7)` — followed by one cell per day
of the month from day 1 through the month's last day in increasing
order, so the length is `d` plus the number of days in the month. -/
theorem getDaysInMonth_spec (year : Int) (month : Nat) (hm : month < 12) :
    getDaysInMonth year month =
      List.replicate (jsGetDay (jsMakeDay year (month : Int) 1)).toNat none ++
        (List.range' 1 (daysInMonthTable year month).toNat).map
          (fun d : Nat => some (jsMakeDay year (month : Int) (d : Int))) ∧
    (getDaysInMonth year month).length =
      (jsGetDay (jsMakeDay year (month : Int) 1)).toNat +
        (daysInMonthTable year month).toNat ∧
    0 ≤ jsGetDay (jsMakeDay year (month : Int) 1) ∧
    jsGetDay (jsMakeDay year (month : Int) 1) < 7 ∧
    (∀ a b : Nat, a < b →
      jsMakeDay year (month : Int) (a : Int) <
        jsMakeDay year (month : Int) (b : Int)) := by
  have hdim := jsGetDate_lastday year month hm
  have hstruct : getDaysInMonth year month =
      List.replicate (jsGetDay (jsMakeDay year (month : Int) 1)).toNat none ++
        (List.range' 1 (daysInMonthTable year month).toNat).map
          (fun d : Nat => some (jsMakeDay year (month : Int) (d : Int))) := by
    simp only [getDaysInMonth]
    rw [hdim, emptyCells_eq, dayCells_eq]
  refine ⟨hstruct, ?_, ?_, ?_, ?_⟩
  · rw [hstruct]
    simp [List.length_replicate, List.length_map, List.length_range']
  · exact Int.emod_nonneg _ (by norm_num)
  · exact Int.emod_lt_of_pos _ (by norm_num)
  · intro a b hab
    simp only [jsMakeDay]
    omega

/-- Witness for C10: October 2025 — 3 leading empty cells (the 1st is
a Wednesday) plus 31 day cells. -/
theorem getDaysInMonth_spec_witness :
    (9 : Nat) < 12 ∧
    (getDaysInMonth 2025 9).length =
      (jsGetDay (jsMakeDay 2025 (9 : Int) 1)).toNat +
        (daysInMonthTable 2025 9).toNat ∧
    (jsGetDay (jsMakeDay 2025 (9 : Int) 1)).toNat = 3 ∧
    (daysInMonthTable 2025 9).toNat = 31 :=
  ⟨by decide, (getDaysInMonth_spec 2025 9 (by decide)).2.1, by decide,
    by decide⟩

end AliceAI
